import Mathlib

/-!
# Verification of the `Function` core of `lsdo_function_spaces`

Shallow embedding of `src/lsdo_function_spaces/core/function.py` (class
`Function`: `evaluate`, `refit`, `project`).  Machine floats are modelled by
exact rationals (`ℚ`); numpy arrays of parametric coordinates are functions
`Fin d → ℚ`, physical points are `Fin np → ℚ`, and the coefficient array —
which the source always consumes through
`coefficients.value.reshape((-1, num_physical_dimensions))` — is modelled
directly in that reshaped logical shape `Fin nc → Fin np → ℚ`.

The concrete function-space implementations live in
`lsdo_function_spaces/core/function_space.py`, which is not part of the
sources under inspection; a `FunctionSpace` is therefore an abstract record
of the three operations the visible code calls (`evaluate`,
`compute_basis_matrix`, `fit`), exactly the interface of spec section 4.1.
Batched numpy calls over an `(n, d)` array of coordinates are modelled
point-wise (one coordinate, one optional derivative-order tuple at a time);
a batch is a `List` that is mapped over.
-/

namespace Lsdo

/-- `np.clip(x, 0., 1.)` for a scalar. -/
def clip01 (x : ℚ) : ℚ := max 0 (min 1 x)

/-- `np.linspace(a, b, n)`: `n` evenly spaced samples from `a` to `b`
(inclusive).  For `n = 1` numpy returns `[a]`; here the `ℚ` convention
`x / 0 = 0` gives the same value, so no special case is needed. -/
def linspace (a b : ℚ) (n : ℕ) : List ℚ :=
  (List.range n).map fun i : ℕ => a + (b - a) * (i : ℚ) / ((n : ℚ) - 1)

/-- The flattened tensor-product grid built by
`np.meshgrid(*xs, indexing='ij')` followed by `reshape((-1,1))` of each
component and `np.hstack`: all `d`-tuples drawn from the per-dimension
sample lists, the first parametric dimension varying slowest. -/
def tensorGrid : (d : ℕ) → (Fin d → List ℚ) → List (Fin d → ℚ)
  | 0, _ => [finZeroElim]
  | d + 1, xs =>
      (xs 0).flatMap fun x =>
        (tensorGrid d fun k => xs k.succ).map fun t => Fin.cons x t

/-- Squared Euclidean norm of a vector.  `np.linalg.norm` comparisons and
argmins are modelled through the square to stay inside `ℚ`: the square root
is strictly monotone on nonnegatives, so order comparisons agree. -/
def normSq {n : ℕ} (v : Fin n → ℚ) : ℚ := ∑ a, v a ^ 2

/-- Exact-arithmetic rendering of `np.linalg.norm(v) < tol`:
for `tol ≥ 0` this is equivalent to `‖v‖² < tol²`, and for `tol < 0`
it is false since `‖v‖ ≥ 0`. -/
def normLt {n : ℕ} (v : Fin n → ℚ) (tol : ℚ) : Prop :=
  0 ≤ tol ∧ normSq v < tol ^ 2

instance {n : ℕ} (v : Fin n → ℚ) (tol : ℚ) : Decidable (normLt v tol) := by
  unfold normLt; exact inferInstance

/-- `np.linalg.solve(A, b)`: fails (raises `LinAlgError`) exactly on a
singular matrix, otherwise returns the unique solution, written through the
adjugate so that the definition is executable over `ℚ`. -/
def npSolve {n : ℕ} (A : Matrix (Fin n) (Fin n) ℚ) (b : Fin n → ℚ) :
    Option (Fin n → ℚ) :=
  if A.det = 0 then none else some (((A.det)⁻¹ • A.adjugate).mulVec b)

/-- What it means for `npSolve` to have solved the system: a returned
vector really satisfies `A *ᵥ x = b`. -/
theorem npSolve_spec {n : ℕ} {A : Matrix (Fin n) (Fin n) ℚ} {b x : Fin n → ℚ}
    (h : npSolve A b = some x) : A.mulVec x = b := by
  unfold npSolve at h
  split at h
  · exact absurd h (by simp)
  · rename_i hdet
    obtain rfl : ((A.det)⁻¹ • A.adjugate).mulVec b = x := by
      simpa using h
    rw [Matrix.smul_mulVec_assoc, Matrix.mulVec_smul, Matrix.mulVec_mulVec,
      Matrix.mul_adjugate, Matrix.smul_mulVec_assoc, Matrix.one_mulVec,
      smul_smul, inv_mul_cancel₀ hdet, one_smul]

theorem npSolve_isSome_of_det_ne {n : ℕ} {A : Matrix (Fin n) (Fin n) ℚ}
    (b : Fin n → ℚ) (h : A.det ≠ 0) :
    npSolve A b = some (((A.det)⁻¹ • A.adjugate).mulVec b) := by
  unfold npSolve; rw [if_neg h]

theorem npSolve_eq_none_of_det_eq {n : ℕ} {A : Matrix (Fin n) (Fin n) ℚ}
    (b : Fin n → ℚ) (h : A.det = 0) : npSolve A b = none := by
  unfold npSolve; rw [if_pos h]

/-- The interface of `FunctionSpace` (spec section 4.1) as consumed by
`function.py`; the implementations are external to the inspected sources.
`d` = `num_parametric_dimensions`, `np` = number of physical dimensions
(the size of the coefficients' last axis), `nc` = number of coefficients.
`evaluate` takes the coefficient matrix, one parametric coordinate, an
optional derivative-order tuple and the forwarded `plot` flag;
`compute_basis_matrix` returns the basis row for one coordinate;
`fit` takes the sampled (coordinate, value) pairs, an optional uniform
derivative-order tuple and an optional regularization parameter. -/
structure FunctionSpace (d np nc : ℕ) where
  evaluate : (Fin nc → Fin np → ℚ) → (Fin d → ℚ) → Option (Fin d → ℕ) → Bool →
    (Fin np → ℚ)
  computeBasisMatrix : (Fin d → ℚ) → Option (Fin d → ℕ) → (Fin nc → ℚ)
  fit : List ((Fin d → ℚ) × (Fin np → ℚ)) → Option (Fin d → ℕ) → Option ℚ →
    (Fin nc → Fin np → ℚ)

/-- The `Function` dataclass: a function space together with coefficients
(stored here in the reshaped `(num_coefficients, num_physical_dimensions)`
logical shape that every use site of the source produces). -/
structure Function (d np nc : ℕ) where
  space : FunctionSpace d np nc
  coefficients : Fin nc → Fin np → ℚ

variable {d np nc nc2 : ℕ}

/-- `Function.evaluate`: substitute the stored coefficients when the
`coefficients` argument is `None`, then delegate to the space. -/
def Function.evaluate (f : Function d np nc) (parametricCoordinates : Fin d → ℚ)
    (parametricDerivativeOrder : Option (Fin d → ℕ) := none)
    (coefficients : Option (Fin nc → Fin np → ℚ) := none)
    (plot : Bool := false) : Fin np → ℚ :=
  let coefficients :=
    match coefficients with
    | none => f.coefficients
    | some c => c
  f.space.evaluate coefficients parametricCoordinates parametricDerivativeOrder plot

/-- State-passing form of `Function.evaluate`: the method body contains no
assignment to `self`, so the post-call object state is the pre-call one. -/
def Function.evaluateS (f : Function d np nc) (parametricCoordinates : Fin d → ℚ)
    (parametricDerivativeOrder : Option (Fin d → ℕ))
    (coefficients : Option (Fin nc → Fin np → ℚ)) (plot : Bool) :
    Function d np nc × (Fin np → ℚ) :=
  (f, f.evaluate parametricCoordinates parametricDerivativeOrder coefficients plot)

/-! ## `Function.project`, Newton phase (`function.py` lines 197-261)

One Newton iteration for one target point: evaluate the function and its
basis-matrix first and second derivatives at the current guess, form the
gradient and Hessian of the squared-distance objective, drop the
coordinates pinned at an outward-pushing boundary, test convergence,
solve the reduced system and update-then-clamp. -/

/-- The derivative-order tuple with a `1` in slot `k` (first loop of
lines 207-212). -/
def unitOrder (d : ℕ) (k : Fin d) : Fin d → ℕ := fun m => if m = k then 1 else 0

/-- The derivative-order tuple of lines 213-219: a `2` in slot `k` when
`m = k`, otherwise a `1` in each of slots `k` and `m`. -/
def secondOrder (d : ℕ) (k m : Fin d) : Fin d → ℕ :=
  fun j =>
    if m = k then (if j = k then 2 else 0)
    else if j = k then 1 else if j = m then 1 else 0

/-- Line 202: `function_value = self.evaluate(current_guess[i]).value`. -/
def functionValue (space : FunctionSpace d np nc) (coeffs : Fin nc → Fin np → ℚ)
    (guess : Fin d → ℚ) : Fin np → ℚ :=
  (Function.mk space coeffs).evaluate guess none none false

/-- Line 204: `displacement = (points[i] - function_value).flatten()`. -/
def displacement (space : FunctionSpace d np nc) (coeffs : Fin nc → Fin np → ℚ)
    (point : Fin np → ℚ) (guess : Fin d → ℚ) : Fin np → ℚ :=
  fun j => point j - functionValue space coeffs guess j

/-- Lines 210-212: `d_displacement_d_parametric[:,k]` is minus the
first-derivative basis row applied to the reshaped coefficients. -/
def dDisplacement (space : FunctionSpace d np nc) (coeffs : Fin nc → Fin np → ℚ)
    (guess : Fin d → ℚ) : Fin np → Fin d → ℚ :=
  fun j k =>
    -Matrix.dotProduct (space.computeBasisMatrix guess (some (unitOrder d k)))
      (fun c => coeffs c j)

/-- Lines 220-222: `d2_displacement_d_parametric2[:,k,m]` is minus the
second-derivative basis row applied to the reshaped coefficients. -/
def d2Displacement (space : FunctionSpace d np nc) (coeffs : Fin nc → Fin np → ℚ)
    (guess : Fin d → ℚ) : Fin np → Fin d → Fin d → ℚ :=
  fun j k m =>
    -Matrix.dotProduct (space.computeBasisMatrix guess (some (secondOrder d k m)))
      (fun c => coeffs c j)

/-- Line 225: `gradient = 2*displacement.dot(d_displacement_d_parametric)`. -/
def gradient (space : FunctionSpace d np nc) (coeffs : Fin nc → Fin np → ℚ)
    (point : Fin np → ℚ) (guess : Fin d → ℚ) : Fin d → ℚ :=
  fun k => 2 * ∑ j, displacement space coeffs point guess j *
    dDisplacement space coeffs guess j k

/-- Lines 226-227:
`hessian = 2*(tensordot(dD, dD, [0,0]) + tensordot(displacement, d2D, [0,0]))`. -/
def hessian (space : FunctionSpace d np nc) (coeffs : Fin nc → Fin np → ℚ)
    (point : Fin np → ℚ) (guess : Fin d → ℚ) : Fin d → Fin d → ℚ :=
  fun k m => 2 * ((∑ j, dDisplacement space coeffs guess j k *
      dDisplacement space coeffs guess j m)
    + ∑ j, displacement space coeffs point guess j *
      d2Displacement space coeffs guess j k m)

/-- Lines 230-232: a coordinate is dropped from the free set this iteration
when it sits at `0` with positive gradient or at `1` with negative gradient. -/
def coordinateRemoved (guess grad : Fin d → ℚ) (k : Fin d) : Prop :=
  (guess k = 0 ∧ 0 < grad k) ∨ (guess k = 1 ∧ grad k < 0)

instance (guess grad : Fin d → ℚ) (k : Fin d) :
    Decidable (coordinateRemoved guess grad k) := by
  unfold coordinateRemoved; exact inferInstance

/-- Line 233: `coordinates_to_keep = np.arange(d)[np.logical_not(to_remove)]` —
the indices not removed, in increasing order. -/
def coordinatesToKeep (guess grad : Fin d → ℚ) : List (Fin d) :=
  (List.finRange d).filter fun k => decide (¬ coordinateRemoved guess grad k)

/-- Line 236: the gradient restricted to the kept coordinates. -/
def reducedGradient (guess grad : Fin d → ℚ) :
    Fin (coordinatesToKeep guess grad).length → ℚ :=
  fun a => grad ((coordinatesToKeep guess grad).get a)

/-- Line 237: `hessian[np.ix_(keep, keep)]`. -/
def reducedHessian (guess grad : Fin d → ℚ) (hess : Fin d → Fin d → ℚ) :
    Matrix (Fin (coordinatesToKeep guess grad).length)
      (Fin (coordinatesToKeep guess grad).length) ℚ :=
  Matrix.of fun a b =>
    hess ((coordinatesToKeep guess grad).get a) ((coordinatesToKeep guess grad).get b)

/-- Line 259: `current_guess[i, coordinates_to_keep] += delta` — the solver
step added to each kept coordinate (in kept order), other coordinates
untouched. -/
def applyDelta (guess : Fin d → ℚ) (keep : List (Fin d))
    (delta : Fin keep.length → ℚ) : Fin d → ℚ :=
  fun k =>
    if h : k ∈ keep then
      guess k + delta ⟨keep.indexOf k, List.indexOf_lt_length.2 h⟩
    else guess k

/-- The failure modes `project` can hit: `numpy.linalg.LinAlgError` from a
singular reduced Hessian (line 256), the broadcast `ValueError` numpy
raises at line 194 when the point count and the grid-search density are
different and neither is `1`, the `UnboundLocalError` of the direction
branch (line 197), and the `ValueError` `np.argmin` would raise on an
empty grid (never reached, since the grid always has at least one
node). -/
inductive ProjError
  | singularHessian
  | broadcastValueError
  | unboundLocalInitialGuess
  | emptyGrid
deriving DecidableEq

/-- Lines 200-261: the Newton loop for one point, running at most
`max_newton_iterations` times.  Each pass recomputes gradient, Hessian and
the free-coordinate set, breaks as soon as the reduced gradient is below
the tolerance, solves the reduced system (propagating `LinAlgError` on a
singular matrix), applies the step to the kept coordinates and clamps the
whole coordinate vector into `[0,1]^d`. -/
def newtonLoop (space : FunctionSpace d np nc) (coeffs : Fin nc → Fin np → ℚ)
    (point : Fin np → ℚ) (tol : ℚ) :
    ℕ → (Fin d → ℚ) → Except ProjError (Fin d → ℚ)
  | 0, guess => .ok guess
  | fuel + 1, guess =>
    if normLt (reducedGradient guess (gradient space coeffs point guess)) tol then
      .ok guess
    else
      match npSolve
          (reducedHessian guess (gradient space coeffs point guess)
            (hessian space coeffs point guess))
          (fun a => -reducedGradient guess (gradient space coeffs point guess) a) with
      | none => .error ProjError.singularHessian
      | some delta =>
          newtonLoop space coeffs point tol fuel
            (fun k => clip01 (applyDelta guess
              (coordinatesToKeep guess (gradient space coeffs point guess)) delta k))

/-! ## `Function.project`, grid-search phase (lines 162-197) -/

/-- Line 162:
`grid_search_resolution = 100*grid_search_density_parameter//num_parametric_dimensions + 1`
(`//` is floor division; on naturals that is `Nat` division).  For
`d = 0` the Python line raises `ZeroDivisionError`; theorems about the
grid search therefore assume `0 < d`. -/
def gridSearchResolution (density d : ℕ) : ℕ := 100 * density / d + 1

/-- Lines 170-178: the flattened uniform tensor grid over `[0,1]^d` with
`grid_search_resolution` samples per dimension. -/
def parametricGridSearch (d res : ℕ) : List (Fin d → ℚ) :=
  tensorGrid d fun _ => linspace 0 1 res

/-- Lines 180-190 for one query point: evaluate the function on the grid,
take the grid node whose value is nearest (`np.argmin` over the Euclidean
distances; equivalently over their squares) and return its parametric
coordinate.  `none` only on an empty grid, where `np.argmin` would raise. -/
def initialGuessFor (space : FunctionSpace d np nc) (coeffs : Fin nc → Fin np → ℚ)
    (res : ℕ) (point : Fin np → ℚ) : Option (Fin d → ℚ) :=
  (parametricGridSearch d res).argmin fun node =>
    normSq fun j => point j - (Function.mk space coeffs).evaluate node none none false j

/-- Lines 197-261 over the whole batch: one Newton refinement per point,
points processed in order, the first per-point exception aborting the call
(as the Python loop does). -/
def projectPoints (space : FunctionSpace d np nc) (coeffs : Fin nc → Fin np → ℚ)
    (res maxIter : ℕ) (tol : ℚ) :
    List (Fin np → ℚ) → Except ProjError (List (Fin d → ℚ))
  | [] => .ok []
  | point :: rest =>
    match initialGuessFor space coeffs res point with
    | none => .error ProjError.emptyGrid
    | some g0 =>
      match newtonLoop space coeffs point tol maxIter g0 with
      | .error e => .error e
      | .ok r =>
        match projectPoints space coeffs res maxIter tol rest with
        | .error e => .error e
        | .ok rs => .ok (r :: rs)

/-- Line 194: `grid_search_points = points + np.outer(np.linspace(-1.,1.,g), direction)`.
`np.outer` has one offset row per `linspace` sample, and the numpy sum
broadcasts along the first axis: it succeeds when the point count equals
the number of offset rows or either of the two is `1` (the single row,
respectively the single point, being repeated), and raises a broadcast
`ValueError` (`none` here) otherwise. -/
def directionGridSearchPoints (points : List (Fin np → ℚ)) (direction : Fin np → ℚ)
    (density : ℕ) : Option (List (Fin np → ℚ)) :=
  let offsets : List (Fin np → ℚ) :=
    (linspace (-1) 1 density).map fun t => fun j => t * direction j
  if points.length = offsets.length then
    some ((points.zip offsets).map fun pr => fun j => pr.1 j + pr.2 j)
  else if points.length = 1 then
    some (offsets.map fun o => fun j => points.headI j + o j)
  else if offsets.length = 1 then
    some (points.map fun p => fun j => p j + offsets.headI j)
  else none

/-- `Function.project` (lines 134-350).  Without a direction: grid search
for initial guesses, then the per-point Newton loop.  With a direction:
line 194 builds the offset grid-search points — raising numpy's broadcast
`ValueError` there when the shapes are incompatible — and on success falls
through to line 197, where `initial_guess` was never assigned, so
`current_guess = initial_guess.copy()` raises `UnboundLocalError` before
any Newton refinement. -/
def Function.project (f : Function d np nc) (points : List (Fin np → ℚ))
    (direction : Option (Fin np → ℚ) := none)
    (gridSearchDensityParameter : ℕ := 1) (maxNewtonIterations : ℕ := 100)
    (newtonTolerance : ℚ := 1/1000000) :
    Except ProjError (List (Fin d → ℚ)) :=
  let res := gridSearchResolution gridSearchDensityParameter d
  match direction with
  | none =>
      projectPoints f.space f.coefficients res maxNewtonIterations newtonTolerance points
  | some dir =>
      match directionGridSearchPoints points dir gridSearchDensityParameter with
      | none => .error ProjError.broadcastValueError
      | some _gridSearchPoints => .error ProjError.unboundLocalInitialGuess

/-! ## `Function.refit` (lines 65-131) -/

/-- Lines 97-114: choose the sample coordinates and decide whether the
both-arguments warning is printed.  Explicit coordinates always win; a
missing resolution defaults to `100` per dimension; when coordinates are
absent the uniform tensor grid at the (per-dimension) resolution is built.
The returned `Bool` is the non-fatal warning of line 101; no branch
raises. -/
def refitSampleCoordinates (gridResolution : Option (Fin d → ℕ))
    (parametricCoordinates : Option (List (Fin d → ℚ))) :
    List (Fin d → ℚ) × Bool :=
  match parametricCoordinates, gridResolution with
  | some cs, some _ => (cs, true)
  | some cs, none => (cs, false)
  | none, some r => (tensorGrid d fun k => linspace 0 1 (r k), false)
  | none, none => (tensorGrid d fun _ => linspace 0 1 100, false)

/-- Lines 116-130: sample the current function through the source space's
basis matrix (channel by channel, which amounts to one basis row dotted
with each coefficient column), fit coefficients in the target space, and
build the new `Function`.  `self` is never written. -/
def Function.refit (f : Function d np nc) (newFunctionSpace : FunctionSpace d np nc2)
    (gridResolution : Option (Fin d → ℕ) := none)
    (parametricCoordinates : Option (List (Fin d → ℚ)) := none)
    (parametricDerivativeOrders : Option (Fin d → ℕ) := none)
    (regularizationParameter : Option ℚ := none) : Function d np nc2 :=
  let coords := (refitSampleCoordinates gridResolution parametricCoordinates).1
  let fittingValues : List (Fin np → ℚ) :=
    coords.map fun c => fun i =>
      Matrix.dotProduct (f.space.computeBasisMatrix c parametricDerivativeOrders)
        (fun cc => f.coefficients cc i)
  let coefficients :=
    newFunctionSpace.fit (coords.zip fittingValues) parametricDerivativeOrders
      regularizationParameter
  Function.mk newFunctionSpace coefficients

/-! ## Allocation model for `refit`'s freshness claim

`FunctionSpace.fit` lives in `function_space.py`, which is not among the
inspected sources; spec section 4.1 specifies it as a least-squares solve
producing coefficients, and section 5 states that it hands back freshly
allocated storage.  To express aliasing at all, coefficient arrays get an
allocation identifier and an allocation counter is threaded through. -/

/-- A `csdl.Variable` holding a coefficient array: an allocation identifier
plus the stored values. -/
structure Var (nc np : ℕ) where
  id : ℕ
  val : Fin nc → Fin np → ℚ

/-- `Function` with identity-carrying coefficient storage. -/
structure HFunction (d np nc : ℕ) where
  space : FunctionSpace d np nc
  coefficients : Var nc np

/-- Modelled from the spec: `FunctionSpace.fit` (in `function_space.py`,
not under the inspected sources) performs a least-squares solve and returns
freshly allocated coefficient storage (spec sections 4.1 and 5).  The model
takes the next free allocation id, stamps the result with it and bumps the
counter; the values are the abstract space's `fit` output. -/
def fitAlloc (space : FunctionSpace d np nc2)
    (samples : List ((Fin d → ℚ) × (Fin np → ℚ)))
    (parametricDerivativeOrders : Option (Fin d → ℕ)) (regParam : Option ℚ)
    (ctr : ℕ) : Var nc2 np × ℕ :=
  (⟨ctr, space.fit samples parametricDerivativeOrders regParam⟩, ctr + 1)

/-- `refit` in the allocation model: the same body as `Function.refit`,
with `fit` replaced by its allocating model.  The first component of the
result is the state of `self` after the call: the method body assigns only
to locals and builds a fresh `Function`, so it is the unchanged input. -/
def refitH (f : HFunction d np nc) (newFunctionSpace : FunctionSpace d np nc2)
    (gridResolution : Option (Fin d → ℕ))
    (parametricCoordinates : Option (List (Fin d → ℚ)))
    (parametricDerivativeOrders : Option (Fin d → ℕ))
    (regularizationParameter : Option ℚ) (ctr : ℕ) :
    HFunction d np nc × HFunction d np nc2 × ℕ :=
  let coords := (refitSampleCoordinates gridResolution parametricCoordinates).1
  let fittingValues : List (Fin np → ℚ) :=
    coords.map fun c => fun i =>
      Matrix.dotProduct (f.space.computeBasisMatrix c parametricDerivativeOrders)
        (fun cc => f.coefficients.val cc i)
  let fitted := fitAlloc newFunctionSpace (coords.zip fittingValues)
    parametricDerivativeOrders regularizationParameter ctr
  (f, HFunction.mk newFunctionSpace fitted.1, fitted.2)

/-! ## The spec's view of the Newton data

Spec section 4.4 phrases the gradient and Hessian through the parametric
Jacobian `J` and second-derivative tensor of `f`, which under the
basis-matrix contract of section 4.1 are the derivative basis rows applied
to the coefficients.  These definitions follow the spec's wording; the
claims compare the source's `gradient`/`hessian` against them. -/

/-- The parametric Jacobian `J` of `f` at a coordinate: entry `(j, k)` is
the first-derivative basis row in dimension `k` applied to coefficient
channel `j`. -/
def jacobianF (space : FunctionSpace d np nc) (coeffs : Fin nc → Fin np → ℚ)
    (guess : Fin d → ℚ) : Fin np → Fin d → ℚ :=
  fun j k =>
    Matrix.dotProduct (space.computeBasisMatrix guess (some (unitOrder d k)))
      (fun c => coeffs c j)

/-- The second-derivative tensor `∂²f/∂p²` of `f` at a coordinate. -/
def secondDerivativeF (space : FunctionSpace d np nc) (coeffs : Fin nc → Fin np → ℚ)
    (guess : Fin d → ℚ) : Fin np → Fin d → Fin d → ℚ :=
  fun j k m =>
    Matrix.dotProduct (space.computeBasisMatrix guess (some (secondOrder d k m)))
      (fun c => coeffs c j)

/-! ## Concrete instances used by the witnesses

Small function spaces with explicitly chosen basis rows; the Newton data
they generate (`displacement = point 0`, `gradient = -2 · point 0`, ...)
exercise both the convergent and the singular branches of the loop. -/

/-- A one-dimensional space: `f ≡ 0`, first- and second-derivative basis
rows both `1`. -/
def exSpace1 : FunctionSpace 1 1 1 where
  evaluate := fun _ _ _ _ => fun _ => 0
  computeBasisMatrix := fun _ o => fun _ =>
    if o = some (unitOrder 1 0) then 1 else if o = some (secondOrder 1 0 0) then 1 else 0
  fit := fun _ _ _ => fun _ _ => 0

/-- Constant-one coefficients for `exSpace1`. -/
def exCoeffs1 : Fin 1 → Fin 1 → ℚ := fun _ _ => 1

/-- A two-dimensional space whose first-derivative basis row in dimension
`0` flips sign with the second parametric coordinate, so that coordinate
`0` is pushed outward at one iterate and inward at the next. -/
def exSpace2 : FunctionSpace 2 1 1 where
  evaluate := fun _ _ _ _ => fun _ => 0
  computeBasisMatrix := fun p o => fun _ =>
    if o = some (unitOrder 2 0) then (if p 1 = 0 then -1 else 1)
    else if o = some (unitOrder 2 1) then 1 else 0
  fit := fun _ _ _ => fun _ _ => 0

/-- Constant-one coefficients for `exSpace2`. -/
def exCoeffs2 : Fin 1 → Fin 1 → ℚ := fun _ _ => 1

/-! ## Helper lemmas -/

theorem clip01_nonneg (x : ℚ) : 0 ≤ clip01 x := le_max_left 0 _

theorem clip01_le_one (x : ℚ) : clip01 x ≤ 1 :=
  max_le (by norm_num) (min_le_left 1 x)

/-- Every sample of `np.linspace(0., 1., n)` lies in `[0,1]`. -/
theorem linspace01_mem {n : ℕ} {x : ℚ} (hx : x ∈ linspace 0 1 n) :
    0 ≤ x ∧ x ≤ 1 := by
  unfold linspace at hx
  obtain ⟨i, hi, rfl⟩ := List.mem_map.1 hx
  rw [List.mem_range] at hi
  have hval : (0:ℚ) + (1 - 0) * (i:ℚ) / ((n:ℚ) - 1) = (i:ℚ) / ((n:ℚ) - 1) := by ring
  rw [hval]
  rcases Nat.lt_or_ge n 2 with h2 | h2
  · have hi0 : i = 0 := by omega
    subst hi0
    simp
  · have hn : (0:ℚ) < (n:ℚ) - 1 := by
      have : (2:ℚ) ≤ (n:ℚ) := by exact_mod_cast h2
      linarith
    constructor
    · exact div_nonneg (Nat.cast_nonneg i) hn.le
    · rw [div_le_one hn]
      have : (i:ℚ) + 1 ≤ (n:ℚ) := by exact_mod_cast hi
      linarith

/-- A node of the tensor grid draws each component from the corresponding
per-dimension sample list. -/
theorem tensorGrid_mem :
    ∀ {d : ℕ} {xs : Fin d → List ℚ} {node : Fin d → ℚ},
      node ∈ tensorGrid d xs → ∀ k, node k ∈ xs k := by
  intro d
  induction d with
  | zero => intro xs node _ k; exact k.elim0
  | succ d ih =>
    intro xs node h k
    unfold tensorGrid at h
    simp only [List.mem_flatMap, List.mem_map] at h
    obtain ⟨x, hx, t, ht, rfl⟩ := h
    refine Fin.cases ?_ ?_ k
    · simpa using hx
    · intro j
      simpa using ih ht j

/-- The tensor grid over nonempty per-dimension sample lists is nonempty. -/
theorem tensorGrid_ne_nil :
    ∀ {d : ℕ} {xs : Fin d → List ℚ}, (∀ k, xs k ≠ []) → tensorGrid d xs ≠ [] := by
  intro d
  induction d with
  | zero => intro xs _; simp [tensorGrid]
  | succ d ih =>
    intro xs hxs
    unfold tensorGrid
    rcases List.exists_mem_of_ne_nil _ (hxs 0) with ⟨x, hx⟩
    have h2 : tensorGrid d (fun k => xs k.succ) ≠ [] := ih fun k => hxs k.succ
    rcases List.exists_mem_of_ne_nil _ h2 with ⟨t, ht⟩
    intro hnil
    have : Fin.cons x t ∈ ([] : List (Fin (d+1) → ℚ)) := by
      rw [← hnil]
      simp only [List.mem_flatMap, List.mem_map]
      exact ⟨x, hx, t, ht, rfl⟩
    simp at this

theorem linspace_ne_nil {a b : ℚ} {n : ℕ} (hn : 0 < n) : linspace a b n ≠ [] := by
  unfold linspace
  intro h
  have h2 := List.range_eq_nil.1 (List.map_eq_nil_iff.1 h)
  omega

theorem linspace_length (a b : ℚ) (n : ℕ) : (linspace a b n).length = n := by
  simp [linspace]

/-- The Newton loop starting inside `[0,1]^d` only ever returns coordinates
in `[0,1]^d`: both exits return either the incoming guess or a vector every
component of which was just clamped by `clip01`. -/
theorem newtonLoop_ok_box {space : FunctionSpace d np nc}
    {coeffs : Fin nc → Fin np → ℚ} {point : Fin np → ℚ} {tol : ℚ} :
    ∀ (fuel : ℕ) (guess res : Fin d → ℚ),
      (∀ k, 0 ≤ guess k ∧ guess k ≤ 1) →
      newtonLoop space coeffs point tol fuel guess = .ok res →
      ∀ k, 0 ≤ res k ∧ res k ≤ 1 := by
  intro fuel
  induction fuel with
  | zero =>
    intro guess res hg h k
    rw [newtonLoop] at h
    cases h
    exact hg k
  | succ fuel ih =>
    intro guess res hg h
    rw [newtonLoop] at h
    split at h
    · cases h; exact hg
    · split at h
      · cases h
      · exact ih _ res (fun k => ⟨clip01_nonneg _, clip01_le_one _⟩) h

/-- The squared norm of the reduced gradient, as a plain list sum over the
kept coordinates. -/
theorem normSq_reducedGradient (guess grad : Fin d → ℚ) :
    normSq (reducedGradient guess grad) =
      ((coordinatesToKeep guess grad).map fun k => grad k ^ 2).sum := by
  rw [← List.ofFn_get_eq_map, List.sum_ofFn]
  rfl

/-- When exactly one coordinate is kept, the reduced Hessian is the `1×1`
matrix holding the corresponding diagonal entry. -/
theorem det_reducedHessian_singleton {guess grad : Fin d → ℚ}
    {hess : Fin d → Fin d → ℚ} {k0 : Fin d}
    (h : coordinatesToKeep guess grad = [k0]) :
    (reducedHessian guess grad hess).det = hess k0 k0 := by
  unfold reducedHessian
  have key : ∀ (L : List (Fin d)), L = [k0] →
      (Matrix.of fun a b : Fin L.length => hess (L.get a) (L.get b)).det =
        hess k0 k0 := by
    intro L hL
    subst hL
    exact Matrix.det_fin_one _
  exact key _ h

/-- When exactly one coordinate is kept and its Hessian diagonal entry is
nonzero, the reduced solve succeeds with the explicit `1×1` solution. -/
theorem npSolve_reducedHessian_singleton {guess grad : Fin d → ℚ}
    {hess : Fin d → Fin d → ℚ} {k0 : Fin d}
    (h : coordinatesToKeep guess grad = [k0]) (h0 : hess k0 k0 ≠ 0) :
    npSolve (reducedHessian guess grad hess) (fun a => -reducedGradient guess grad a)
      = some (fun _ => (hess k0 k0)⁻¹ * -grad k0) := by
  unfold reducedHessian reducedGradient
  have key : ∀ (L : List (Fin d)), L = [k0] →
      npSolve (Matrix.of fun a b : Fin L.length => hess (L.get a) (L.get b))
        (fun a => -grad (L.get a)) = some (fun _ => (hess k0 k0)⁻¹ * -grad k0) := by
    intro L hL
    subst hL
    have hdet : (Matrix.of fun a b : Fin (List.length [k0]) =>
        hess (List.get [k0] a) (List.get [k0] b)).det = hess k0 k0 :=
      Matrix.det_fin_one _
    rw [npSolve_isSome_of_det_ne _ (fun hc => h0 (hdet ▸ hc))]
    congr 1
    have hadj : (Matrix.of fun a b : Fin (List.length [k0]) =>
        hess (List.get [k0] a) (List.get [k0] b)).adjugate = 1 :=
      Matrix.adjugate_fin_one _
    rw [hdet, hadj, Matrix.smul_mulVec_assoc, Matrix.one_mulVec]
    funext a
    have ha : a = (0 : Fin 1) := Fin.eq_zero a
    subst ha
    rfl
  exact key _ h

/-- Applying a step along a singleton keep list adds the single solver
component to that coordinate and leaves every other coordinate unchanged. -/
theorem applyDelta_singleton {k0 : Fin d} (guess : Fin d → ℚ)
    (delta : Fin (List.length [k0]) → ℚ) :
    applyDelta guess [k0] delta =
      fun k => if k = k0 then guess k + delta ⟨0, by simp⟩ else guess k := by
  funext k
  unfold applyDelta
  by_cases hk : k = k0
  · subst hk
    rw [dif_pos (List.mem_singleton.2 rfl), if_pos rfl]
    refine congrArg (fun z => guess k + z) (congrArg delta (Fin.ext ?_))
    simp [List.indexOf_cons_self]
  · rw [dif_neg (fun hmem => hk (List.mem_singleton.1 hmem)), if_neg hk]

/-! Evaluation of the Newton data on `exSpace1`. -/

theorem exSpace1_disp_apply (point guess : Fin 1 → ℚ) (j : Fin 1) :
    displacement exSpace1 exCoeffs1 point guess j = point j := by
  unfold displacement functionValue Function.evaluate exSpace1
  ring

theorem exSpace1_dDisp_apply (guess : Fin 1 → ℚ) (j : Fin 1) (k : Fin 1) :
    dDisplacement exSpace1 exCoeffs1 guess j k = -1 := by
  have hk : k = 0 := Fin.eq_zero k
  subst hk
  unfold dDisplacement exSpace1 exCoeffs1
  simp [Matrix.dotProduct]

theorem exSpace1_d2Disp_apply (guess : Fin 1 → ℚ) (j k m : Fin 1) :
    d2Displacement exSpace1 exCoeffs1 guess j k m = -1 := by
  have hk : k = 0 := Fin.eq_zero k
  have hm : m = 0 := Fin.eq_zero m
  subst hk; subst hm
  have hne : (some (secondOrder 1 0 0) : Option (Fin 1 → ℕ)) ≠ some (unitOrder 1 0) := by
    decide
  unfold d2Displacement exSpace1 exCoeffs1
  simp [Matrix.dotProduct, hne]

theorem exSpace1_gradient (point guess : Fin 1 → ℚ) :
    gradient exSpace1 exCoeffs1 point guess = fun _ => -2 * point 0 := by
  funext k
  unfold gradient
  rw [Fin.sum_univ_one, exSpace1_disp_apply, exSpace1_dDisp_apply]
  ring

theorem exSpace1_hessian (point guess : Fin 1 → ℚ) :
    hessian exSpace1 exCoeffs1 point guess = fun _ _ => 2 * (1 - point 0) := by
  funext k m
  unfold hessian
  rw [Fin.sum_univ_one, Fin.sum_univ_one, exSpace1_disp_apply,
    exSpace1_dDisp_apply, exSpace1_dDisp_apply, exSpace1_d2Disp_apply]
  ring

/-- At an interior one-dimensional guess neither boundary test fires, so
the single coordinate is kept, whatever the gradient. -/
theorem keep_half (grad : Fin 1 → ℚ) :
    coordinatesToKeep (fun _ => (1:ℚ)/2) grad = [0] := by
  have h : ¬ coordinateRemoved (fun _ => (1:ℚ)/2) grad 0 := by
    unfold coordinateRemoved
    push_neg
    constructor <;> intro h' <;> exfalso <;> norm_num at h'
  have hfin : List.finRange 1 = [0] := by decide
  unfold coordinatesToKeep
  rw [hfin, List.filter_cons, if_pos (decide_eq_true h)]
  rfl

/-- Each result of a successful `projectPoints` run is the Newton output
for one of the input points, started from that point's grid-search guess. -/
theorem projectPoints_ok_mem {space : FunctionSpace d np nc}
    {coeffs : Fin nc → Fin np → ℚ} {res maxIter : ℕ} {tol : ℚ} :
    ∀ {points : List (Fin np → ℚ)} {results : List (Fin d → ℚ)},
      projectPoints space coeffs res maxIter tol points = .ok results →
      ∀ r ∈ results, ∃ point g0,
        initialGuessFor space coeffs res point = some g0 ∧
        newtonLoop space coeffs point tol maxIter g0 = .ok r := by
  intro points
  induction points with
  | nil =>
    intro results h r hr
    rw [projectPoints] at h
    cases h
    simp at hr
  | cons point rest ih =>
    intro results h r hr
    rw [projectPoints] at h
    split at h
    · cases h
    · rename_i g0 hg0
      split at h
      · cases h
      · rename_i r1 hr1
        split at h
        · cases h
        · rename_i rs hrs
          cases h
          rcases List.mem_cons.1 hr with rfl | hmem
          · exact ⟨point, g0, hg0, hr1⟩
          · exact ih hrs r hmem

/-! Evaluation of the Newton data on `exSpace2`. -/

theorem exSpace2_disp_apply (point : Fin 1 → ℚ) (guess : Fin 2 → ℚ) (j : Fin 1) :
    displacement exSpace2 exCoeffs2 point guess j = point j := by
  unfold displacement functionValue Function.evaluate exSpace2
  ring

theorem exSpace2_dDisp_zero (guess : Fin 2 → ℚ) (j : Fin 1) :
    dDisplacement exSpace2 exCoeffs2 guess j 0
      = -(if guess 1 = 0 then (-1 : ℚ) else 1) := by
  unfold dDisplacement exSpace2 exCoeffs2
  simp [Matrix.dotProduct]

theorem exSpace2_dDisp_one (guess : Fin 2 → ℚ) (j : Fin 1) :
    dDisplacement exSpace2 exCoeffs2 guess j 1 = -1 := by
  have hne : (some (unitOrder 2 1) : Option (Fin 2 → ℕ)) ≠ some (unitOrder 2 0) := by
    decide
  unfold dDisplacement exSpace2 exCoeffs2
  simp [Matrix.dotProduct, hne]

theorem exSpace2_d2Disp_one_one (guess : Fin 2 → ℚ) (j : Fin 1) :
    d2Displacement exSpace2 exCoeffs2 guess j 1 1 = 0 := by
  have hne0 : (some (secondOrder 2 1 1) : Option (Fin 2 → ℕ)) ≠ some (unitOrder 2 0) := by
    decide
  have hne1 : (some (secondOrder 2 1 1) : Option (Fin 2 → ℕ)) ≠ some (unitOrder 2 1) := by
    decide
  unfold d2Displacement exSpace2 exCoeffs2
  simp [Matrix.dotProduct, hne0, hne1]

theorem exSpace2_gradient_zero (point : Fin 1 → ℚ) (guess : Fin 2 → ℚ) :
    gradient exSpace2 exCoeffs2 point guess 0
      = -2 * point 0 * (if guess 1 = 0 then (-1 : ℚ) else 1) := by
  unfold gradient
  rw [Fin.sum_univ_one, exSpace2_disp_apply, exSpace2_dDisp_zero]
  ring

theorem exSpace2_gradient_one (point : Fin 1 → ℚ) (guess : Fin 2 → ℚ) :
    gradient exSpace2 exCoeffs2 point guess 1 = -2 * point 0 := by
  unfold gradient
  rw [Fin.sum_univ_one, exSpace2_disp_apply, exSpace2_dDisp_one]
  ring

theorem exSpace2_hessian_one_one (point : Fin 1 → ℚ) (guess : Fin 2 → ℚ) :
    hessian exSpace2 exCoeffs2 point guess 1 1 = 2 := by
  unfold hessian
  rw [Fin.sum_univ_one, Fin.sum_univ_one, exSpace2_disp_apply,
    exSpace2_dDisp_one, exSpace2_d2Disp_one_one]
  ring

/-! ## Claims -/

/-- C1: every `project` call without a direction returns only parametric
coordinates all of whose components lie in `[0,1]`: the grid-search initial
guesses are grid nodes drawn from `linspace(0,1,·)`, and every Newton
update clamps the full coordinate vector into `[0,1]^d` before the next
iteration or return. -/
theorem project_no_direction_in_unit_box (f : Function d np nc)
    (points : List (Fin np → ℚ)) (density maxIter : ℕ) (tol : ℚ)
    (results : List (Fin d → ℚ))
    (hok : f.project points none density maxIter tol = .ok results) :
    ∀ r ∈ results, ∀ k, 0 ≤ r k ∧ r k ≤ 1 := by
  intro r hr
  have hok' : projectPoints f.space f.coefficients (gridSearchResolution density d)
      maxIter tol points = .ok results := hok
  obtain ⟨point, g0, hg0, hloop⟩ := projectPoints_ok_mem hok' r hr
  have hg0' : (parametricGridSearch d (gridSearchResolution density d)).argmin
      (fun node => normSq fun j =>
        point j - (Function.mk f.space f.coefficients).evaluate node none none false j)
      = some g0 := hg0
  have hmem : g0 ∈ parametricGridSearch d (gridSearchResolution density d) :=
    List.argmin_mem hg0'
  exact newtonLoop_ok_box maxIter g0 r
    (fun k => linspace01_mem (tensorGrid_mem hmem k)) hloop

/-- C1 witness: a concrete one-dimensional projection succeeds and its
result lies in the unit box. -/
theorem project_no_direction_in_unit_box_witness :
    ∃ results,
      Function.project (Function.mk exSpace1 exCoeffs1) [fun _ => 0] none 0 0 1
        = .ok results
      ∧ ∀ r ∈ results, ∀ k, 0 ≤ r k ∧ r k ≤ 1 := by
  refine ⟨_, rfl, ?_⟩
  exact project_no_direction_in_unit_box (Function.mk exSpace1 exCoeffs1)
    [fun _ => 0] 0 0 1 _ rfl

/-- C4: the per-point Newton iteration stops (returning the current guess
with no further update) as soon as the reduced-gradient norm is below the
tolerance, the test running before the step; and when the iteration budget
is exhausted the loop returns the current guess with no error and no
convergence flag (the success value is just the coordinates). -/
theorem newton_convergence_and_cap (space : FunctionSpace d np nc)
    (coeffs : Fin nc → Fin np → ℚ) (point : Fin np → ℚ) (tol : ℚ) :
    (∀ fuel guess,
      normLt (reducedGradient guess (gradient space coeffs point guess)) tol →
        newtonLoop space coeffs point tol (fuel + 1) guess = .ok guess)
    ∧ ∀ guess, newtonLoop space coeffs point tol 0 guess = .ok guess := by
  constructor
  · intro fuel guess h
    rw [newtonLoop, if_pos h]
  · intro guess
    rfl

/-- C4 witness: on a concrete converged state the loop returns the guess
unchanged. -/
theorem newton_convergence_and_cap_witness :
    normLt (reducedGradient (fun _ : Fin 1 => 1/2)
        (gradient exSpace1 exCoeffs1 (fun _ => 0) (fun _ => 1/2))) 1
    ∧ newtonLoop exSpace1 exCoeffs1 (fun _ => 0) 1 1 (fun _ => 1/2)
        = .ok (fun _ => 1/2) := by
  have hg : gradient exSpace1 exCoeffs1 (fun _ => 0) (fun _ => 1/2)
      = fun _ => 0 := by
    rw [exSpace1_gradient]
    funext k
    norm_num
  have hn : normLt (reducedGradient (fun _ : Fin 1 => 1/2)
      (gradient exSpace1 exCoeffs1 (fun _ => 0) (fun _ => 1/2))) 1 := by
    rw [hg]
    refine ⟨by norm_num, ?_⟩
    rw [normSq_reducedGradient]
    have hz : ((coordinatesToKeep (fun _ : Fin 1 => 1/2) fun _ => 0).map
        fun k => (0:ℚ) ^ 2).sum = 0 :=
      List.sum_eq_zero (by simp)
    rw [hz]
    norm_num
  exact ⟨hn, (newton_convergence_and_cap exSpace1 exCoeffs1 (fun _ => 0) 1).1 0 _ hn⟩

/-- C9: a singular reduced Hessian in a non-converged Newton iteration has
no fallback: the loop fails with the linear-solve error for that point,
with no damping or regularization attempted. -/
theorem newton_singular_hessian_no_fallback (space : FunctionSpace d np nc)
    (coeffs : Fin nc → Fin np → ℚ) (point : Fin np → ℚ) (tol : ℚ)
    (fuel : ℕ) (guess : Fin d → ℚ)
    (hconv : ¬ normLt (reducedGradient guess (gradient space coeffs point guess)) tol)
    (hdet : (reducedHessian guess (gradient space coeffs point guess)
        (hessian space coeffs point guess)).det = 0) :
    newtonLoop space coeffs point tol (fuel + 1) guess
      = .error ProjError.singularHessian := by
  rw [newtonLoop, if_neg hconv, npSolve_eq_none_of_det_eq _ hdet]

/-- C9 witness: a concrete state with vanishing reduced Hessian fails. -/
theorem newton_singular_hessian_no_fallback_witness :
    (¬ normLt (reducedGradient (fun _ : Fin 1 => 1/2)
        (gradient exSpace1 exCoeffs1 (fun _ => 1) (fun _ => 1/2))) 1)
    ∧ newtonLoop exSpace1 exCoeffs1 (fun _ => 1) 1 1 (fun _ => 1/2)
        = .error ProjError.singularHessian := by
  have hg : gradient exSpace1 exCoeffs1 (fun _ => 1) (fun _ => 1/2)
      = fun _ => -2 := by
    rw [exSpace1_gradient]
    funext k
    norm_num
  have hh : hessian exSpace1 exCoeffs1 (fun _ => 1) (fun _ => 1/2)
      = fun _ _ => 0 := by
    rw [exSpace1_hessian]
    funext k m
    norm_num
  have hconv : ¬ normLt (reducedGradient (fun _ : Fin 1 => 1/2)
      (gradient exSpace1 exCoeffs1 (fun _ => 1) (fun _ => 1/2))) 1 := by
    rw [hg]
    rintro ⟨-, hlt⟩
    rw [normSq_reducedGradient, keep_half] at hlt
    norm_num at hlt
  have hdet : (reducedHessian (fun _ : Fin 1 => 1/2)
      (gradient exSpace1 exCoeffs1 (fun _ => 1) (fun _ => 1/2))
      (hessian exSpace1 exCoeffs1 (fun _ => 1) (fun _ => 1/2))).det = 0 := by
    rw [hg, hh, det_reducedHessian_singleton (keep_half _)]
  exact ⟨hconv,
    newton_singular_hessian_no_fallback exSpace1 exCoeffs1 (fun _ => 1) 1 0 _ hconv hdet⟩

/-- C10 counterexample: the claim's "every direction call fails with an
unbound-local-variable error" is false — with 3 points and
`grid_search_density_parameter = 2`, the line-194 sum of a `(3, np)` array
with a `(2, np)` array raises numpy's broadcast `ValueError` before line
197 is reached, so this call does not fail with `UnboundLocalError`. -/
theorem project_with_direction_unbound_local_counterexample :
    Function.project (Function.mk exSpace1 exCoeffs1)
        [fun _ => 0, fun _ => 0, fun _ => 0] (some fun _ => 1) 2 1 1
      = .error ProjError.broadcastValueError
    ∧ Function.project (Function.mk exSpace1 exCoeffs1)
        [fun _ => 0, fun _ => 0, fun _ => 0] (some fun _ => 1) 2 1 1
      ≠ .error ProjError.unboundLocalInitialGuess := by
  refine ⟨rfl, ?_⟩
  intro h
  have h2 : (Except.error ProjError.broadcastValueError :
      Except ProjError (List (Fin 1 → ℚ)))
      = .error ProjError.unboundLocalInitialGuess :=
    (show Function.project (Function.mk exSpace1 exCoeffs1)
        [fun _ => 0, fun _ => 0, fun _ => 0] (some fun _ => 1) 2 1 1
      = .error ProjError.broadcastValueError from rfl).symm.trans h
  exact ProjError.noConfusion (Except.error.inj h2)

/-- C10 (amended): every `project` call with a direction fails before
entering the Newton refinement loop and never returns parametric
coordinates: when the line-194 broadcast of the points against the offset
rows is compatible (the point count equals `grid_search_density_parameter`,
or either is 1), the offset grid-search points are computed and the call
fails with the `UnboundLocalError` of line 197 since `initial_guess` was
never assigned; otherwise numpy's broadcast `ValueError` is raised at line
194 itself. -/
theorem project_with_direction_fails_before_newton (f : Function d np nc)
    (points : List (Fin np → ℚ)) (dir : Fin np → ℚ) (density maxIter : ℕ)
    (tol : ℚ) :
    (∀ coords, f.project points (some dir) density maxIter tol ≠ .ok coords)
    ∧ (points.length = density ∨ points.length = 1 ∨ density = 1 →
        f.project points (some dir) density maxIter tol
          = .error ProjError.unboundLocalInitialGuess)
    ∧ (¬ (points.length = density ∨ points.length = 1 ∨ density = 1) →
        f.project points (some dir) density maxIter tol
          = .error ProjError.broadcastValueError) := by
  have hlen : ((linspace (-1) 1 density).map fun t => fun j => t * dir j).length
      = density := by
    rw [List.length_map, linspace_length]
  refine ⟨?_, ?_, ?_⟩
  · intro coords h
    simp only [Function.project] at h
    rcases hdg : directionGridSearchPoints points dir density with _ | v
    · rw [hdg] at h
      exact Except.noConfusion h
    · rw [hdg] at h
      exact Except.noConfusion h
  · intro h
    have hsome : ∃ v, directionGridSearchPoints points dir density = some v := by
      simp only [directionGridSearchPoints]
      split_ifs with h1 h2 h3
      · exact ⟨_, rfl⟩
      · exact ⟨_, rfl⟩
      · exact ⟨_, rfl⟩
      · exfalso
        rw [hlen] at h1 h3
        rcases h with h | h | h <;> contradiction
    obtain ⟨v, hv⟩ := hsome
    show (match directionGridSearchPoints points dir density with
      | none => Except.error ProjError.broadcastValueError
      | some _ => Except.error ProjError.unboundLocalInitialGuess)
      = Except.error ProjError.unboundLocalInitialGuess
    rw [hv]
  · intro h
    push_neg at h
    have hnone : directionGridSearchPoints points dir density = none := by
      simp only [directionGridSearchPoints]
      rw [if_neg, if_neg, if_neg]
      · rw [hlen]; exact h.2.2
      · exact h.2.1
      · rw [hlen]; exact h.1
    show (match directionGridSearchPoints points dir density with
      | none => Except.error ProjError.broadcastValueError
      | some _ => Except.error ProjError.unboundLocalInitialGuess)
      = Except.error ProjError.broadcastValueError
    rw [hnone]

/-- C10 witness: both refined failure modes occur — a compatible call
(one point, density 1) dies with the unbound-local error, an incompatible
one (three points, density 2) with the broadcast error. -/
theorem project_with_direction_fails_before_newton_witness :
    (([fun _ => (0:ℚ)] : List (Fin 1 → ℚ)).length = 1 ∨
        ([fun _ => (0:ℚ)] : List (Fin 1 → ℚ)).length = 1 ∨ (1:ℕ) = 1)
    ∧ Function.project (Function.mk exSpace1 exCoeffs1) [fun _ => 0]
        (some fun _ => 1) 1 1 1 = .error ProjError.unboundLocalInitialGuess
    ∧ ¬ (([fun _ => (0:ℚ), fun _ => 0, fun _ => 0] : List (Fin 1 → ℚ)).length = 2
        ∨ ([fun _ => (0:ℚ), fun _ => 0, fun _ => 0] : List (Fin 1 → ℚ)).length = 1
        ∨ (2:ℕ) = 1)
    ∧ Function.project (Function.mk exSpace1 exCoeffs1)
        [fun _ => 0, fun _ => 0, fun _ => 0] (some fun _ => 1) 2 1 1
      = .error ProjError.broadcastValueError := by
  have hc : (([fun _ => (0:ℚ)] : List (Fin 1 → ℚ)).length = 1 ∨
      ([fun _ => (0:ℚ)] : List (Fin 1 → ℚ)).length = 1 ∨ (1:ℕ) = 1) :=
    Or.inl rfl
  have hi : ¬ (([fun _ => (0:ℚ), fun _ => 0, fun _ => 0] : List (Fin 1 → ℚ)).length = 2
      ∨ ([fun _ => (0:ℚ), fun _ => 0, fun _ => 0] : List (Fin 1 → ℚ)).length = 1
      ∨ (2:ℕ) = 1) := by
    rintro (h | h | h) <;> simp at h
  exact ⟨hc,
    (project_with_direction_fails_before_newton (Function.mk exSpace1 exCoeffs1)
      [fun _ => 0] (fun _ => 1) 1 1 1).2.1 hc,
    hi,
    (project_with_direction_fails_before_newton (Function.mk exSpace1 exCoeffs1)
      [fun _ => 0, fun _ => 0, fun _ => 0] (fun _ => 1) 2 1 1).2.2 hi⟩

/-- C8: `Function.evaluate` is pure delegation to the space's `evaluate`
at the same coordinates, derivative order and plot flag, substituting the
function's stored coefficients when the argument is omitted, and leaving
the object state untouched. -/
theorem evaluate_delegates_to_space (f : Function d np nc) (coords : Fin d → ℚ)
    (derivOrder : Option (Fin d → ℕ)) (coeffsOpt : Option (Fin nc → Fin np → ℚ))
    (plot : Bool) :
    f.evaluate coords derivOrder coeffsOpt plot
        = f.space.evaluate (coeffsOpt.getD f.coefficients) coords derivOrder plot
    ∧ f.evaluate coords derivOrder none plot
        = f.space.evaluate f.coefficients coords derivOrder plot
    ∧ f.evaluateS coords derivOrder coeffsOpt plot
        = (f, f.space.evaluate (coeffsOpt.getD f.coefficients) coords derivOrder plot) := by
  refine ⟨?_, rfl, ?_⟩
  · cases coeffsOpt <;> rfl
  · cases coeffsOpt <;> rfl

/-- C6: `refit` takes explicit parametric coordinates when given (with the
non-fatal both-arguments warning exactly when a grid resolution was also
given), otherwise the uniform tensor grid at the given resolution,
otherwise the default grid of 100 samples per dimension — and the fitted
coefficients are computed from exactly those sample coordinates. -/
theorem refit_sample_coordinates_rules (f : Function d np nc)
    (ns : FunctionSpace d np nc2) (r : Fin d → ℕ) (cs : List (Fin d → ℚ))
    (po : Option (Fin d → ℕ)) (rp : Option ℚ) :
    refitSampleCoordinates (d := d) (some r) (some cs) = (cs, true)
    ∧ refitSampleCoordinates (d := d) none (some cs) = (cs, false)
    ∧ refitSampleCoordinates (d := d) (some r) none
        = (tensorGrid d fun k => linspace 0 1 (r k), false)
    ∧ refitSampleCoordinates (d := d) none none
        = (tensorGrid d fun _ => linspace 0 1 100, false)
    ∧ ∀ gridRes paramCoords,
        (f.refit ns gridRes paramCoords po rp).coefficients
          = ns.fit (((refitSampleCoordinates gridRes paramCoords).1).zip
              ((refitSampleCoordinates gridRes paramCoords).1.map fun c => fun i =>
                Matrix.dotProduct (f.space.computeBasisMatrix c po)
                  fun cc => f.coefficients cc i)) po rp :=
  ⟨rfl, rfl, rfl, rfl, fun _ _ => rfl⟩

/-- C5: a directionless `project` uses the per-dimension resolution
`100·density / d + 1` (floor division), builds the uniform tensor grid of
`linspace(0,1,resolution)` samples over `[0,1]^d`, and starts each query
point's Newton iteration from a grid node whose evaluated function value
is nearest to the query point in Euclidean distance (squared distance here;
the square root is strictly monotone). -/
theorem grid_search_initial_guess_nearest (space : FunctionSpace d np nc)
    (coeffs : Fin nc → Fin np → ℚ) (density : ℕ) (point : Fin np → ℚ)
    (hd : 0 < d) :
    gridSearchResolution density d = 100 * density / d + 1
    ∧ parametricGridSearch d (gridSearchResolution density d)
        = tensorGrid d (fun _ => linspace 0 1 (gridSearchResolution density d))
    ∧ ∃ g0,
        initialGuessFor space coeffs (gridSearchResolution density d) point = some g0
        ∧ g0 ∈ parametricGridSearch d (gridSearchResolution density d)
        ∧ ∀ node ∈ parametricGridSearch d (gridSearchResolution density d),
            normSq (fun j => point j -
                (Function.mk space coeffs).evaluate g0 none none false j)
            ≤ normSq (fun j => point j -
                (Function.mk space coeffs).evaluate node none none false j) := by
  refine ⟨rfl, rfl, ?_⟩
  have hne : parametricGridSearch d (gridSearchResolution density d) ≠ [] := by
    unfold parametricGridSearch
    exact tensorGrid_ne_nil fun _ => linspace_ne_nil (Nat.succ_pos _)
  have hsome : initialGuessFor space coeffs (gridSearchResolution density d) point
      ≠ none := by
    intro hn
    exact hne (List.argmin_eq_none.1 hn)
  obtain ⟨g0, hg0⟩ := Option.ne_none_iff_exists'.1 hsome
  have hg0' : (parametricGridSearch d (gridSearchResolution density d)).argmin
      (fun node => normSq fun j =>
        point j - (Function.mk space coeffs).evaluate node none none false j)
      = some g0 := hg0
  refine ⟨g0, hg0, List.argmin_mem hg0', fun node hnode => ?_⟩
  have h3 := List.le_of_mem_argmin hnode hg0'
  simpa using h3

/-- C5 witness: the grid-search guarantees hold on a concrete
one-dimensional instance. -/
theorem grid_search_initial_guess_nearest_witness :
    (0:ℕ) < 1
    ∧ (gridSearchResolution 1 1 = 100 * 1 / 1 + 1
      ∧ parametricGridSearch 1 (gridSearchResolution 1 1)
          = tensorGrid 1 (fun _ => linspace 0 1 (gridSearchResolution 1 1))
      ∧ ∃ g0,
          initialGuessFor exSpace1 exCoeffs1 (gridSearchResolution 1 1)
            (fun _ => 0) = some g0
          ∧ g0 ∈ parametricGridSearch 1 (gridSearchResolution 1 1)
          ∧ ∀ node ∈ parametricGridSearch 1 (gridSearchResolution 1 1),
              normSq (fun j => (fun _ : Fin 1 => (0:ℚ)) j -
                  (Function.mk exSpace1 exCoeffs1).evaluate g0 none none false j)
              ≤ normSq (fun j => (fun _ : Fin 1 => (0:ℚ)) j -
                  (Function.mk exSpace1 exCoeffs1).evaluate node none none false j)) :=
  ⟨Nat.one_pos,
    grid_search_initial_guess_nearest exSpace1 exCoeffs1 1 (fun _ => 0) Nat.one_pos⟩

/-- C7: `refit` returns a fresh `Function` carrying the target space and
the newly fitted coefficients; the original function's `space` and
`coefficients` fields are untouched and the result's coefficient storage
is a new allocation, not an alias of the source's. -/
theorem refit_returns_fresh_function (f : HFunction d np nc)
    (ns : FunctionSpace d np nc2) (gridRes : Option (Fin d → ℕ))
    (coords : Option (List (Fin d → ℚ))) (po : Option (Fin d → ℕ))
    (rp : Option ℚ) (ctr : ℕ) (hctr : f.coefficients.id < ctr) :
    (refitH f ns gridRes coords po rp ctr).1 = f
    ∧ (refitH f ns gridRes coords po rp ctr).2.1.space = ns
    ∧ (refitH f ns gridRes coords po rp ctr).2.1.coefficients.id
        ≠ f.coefficients.id
    ∧ (refitH f ns gridRes coords po rp ctr).2.1.coefficients.val
        = ns.fit (((refitSampleCoordinates gridRes coords).1).zip
            ((refitSampleCoordinates gridRes coords).1.map fun c => fun i =>
              Matrix.dotProduct (f.space.computeBasisMatrix c po)
                fun cc => f.coefficients.val cc i)) po rp := by
  refine ⟨rfl, rfl, ?_, rfl⟩
  show ctr ≠ f.coefficients.id
  omega

/-- C7 witness: a concrete refit call leaves the source untouched and
allocates a distinct coefficient id. -/
theorem refit_returns_fresh_function_witness :
    (HFunction.mk exSpace1 (Var.mk 0 exCoeffs1)).coefficients.id < 1
    ∧ (refitH (HFunction.mk exSpace1 (Var.mk 0 exCoeffs1)) exSpace1 none none
        none none 1).1 = HFunction.mk exSpace1 (Var.mk 0 exCoeffs1)
    ∧ (refitH (HFunction.mk exSpace1 (Var.mk 0 exCoeffs1)) exSpace1 none none
        none none 1).2.1.coefficients.id
        ≠ (HFunction.mk exSpace1 (Var.mk 0 exCoeffs1)).coefficients.id := by
  have h := refit_returns_fresh_function (HFunction.mk exSpace1 (Var.mk 0 exCoeffs1))
    exSpace1 none none none none 1 (by decide)
  exact ⟨by decide, h.1, h.2.2.1⟩

/-- C2: in each Newton iteration, the computed gradient is
`-2 · displacementᵗ · J` and the computed Hessian is
`2·(Jᵗ·J - displacementᵗ·∂²f/∂p²)` with `J` the parametric Jacobian of the
function at the current guess; the step leaves non-free coordinates
untouched, any returned solution exactly solves the reduced system
`H_red · Δ = -g_red`, and a non-converged iteration continues from the
clamped update of the free coordinates. -/
theorem newton_step_formulas (space : FunctionSpace d np nc)
    (coeffs : Fin nc → Fin np → ℚ) (point : Fin np → ℚ) (guess : Fin d → ℚ)
    (tol : ℚ) (fuel : ℕ) :
    gradient space coeffs point guess
      = (fun k => -2 * ∑ j, displacement space coeffs point guess j *
          jacobianF space coeffs guess j k)
    ∧ hessian space coeffs point guess
      = (fun k m => 2 * ((∑ j, jacobianF space coeffs guess j k *
            jacobianF space coeffs guess j m)
          - ∑ j, displacement space coeffs point guess j *
            secondDerivativeF space coeffs guess j k m))
    ∧ (∀ k, k ∉ coordinatesToKeep guess (gradient space coeffs point guess) →
        ∀ delta, applyDelta guess
          (coordinatesToKeep guess (gradient space coeffs point guess)) delta k
          = guess k)
    ∧ ∀ delta,
        npSolve (reducedHessian guess (gradient space coeffs point guess)
            (hessian space coeffs point guess))
          (fun a => -reducedGradient guess (gradient space coeffs point guess) a)
          = some delta →
        (reducedHessian guess (gradient space coeffs point guess)
            (hessian space coeffs point guess)).mulVec delta
          = (fun a => -reducedGradient guess (gradient space coeffs point guess) a)
        ∧ (¬ normLt (reducedGradient guess (gradient space coeffs point guess)) tol →
            newtonLoop space coeffs point tol (fuel + 1) guess
              = newtonLoop space coeffs point tol fuel
                  (fun k => clip01 (applyDelta guess
                    (coordinatesToKeep guess (gradient space coeffs point guess))
                    delta k))) := by
  refine ⟨?_, ?_, ?_, ?_⟩
  · funext k
    simp only [gradient, dDisplacement, jacobianF, mul_neg,
      Finset.sum_neg_distrib]
    ring
  · funext k m
    simp only [hessian, dDisplacement, d2Displacement, jacobianF,
      secondDerivativeF, neg_mul_neg, mul_neg, neg_mul, neg_neg,
      Finset.sum_neg_distrib]
    ring
  · intro k hk delta
    unfold applyDelta
    rw [dif_neg hk]
  · intro delta hsol
    refine ⟨npSolve_spec hsol, fun hnc => ?_⟩
    rw [newtonLoop, if_neg hnc, hsol]

/-- C2 witness: on a concrete non-converged interior state the reduced
solve succeeds and the returned step solves the reduced system, with the
loop continuing from the clamped update. -/
theorem newton_step_formulas_witness :
    ∃ delta,
      npSolve (reducedHessian (fun _ : Fin 1 => 1/2)
          (gradient exSpace1 exCoeffs1 (fun _ => 3) (fun _ => 1/2))
          (hessian exSpace1 exCoeffs1 (fun _ => 3) (fun _ => 1/2)))
        (fun a => -reducedGradient (fun _ : Fin 1 => 1/2)
          (gradient exSpace1 exCoeffs1 (fun _ => 3) (fun _ => 1/2)) a)
        = some delta
      ∧ (reducedHessian (fun _ : Fin 1 => 1/2)
          (gradient exSpace1 exCoeffs1 (fun _ => 3) (fun _ => 1/2))
          (hessian exSpace1 exCoeffs1 (fun _ => 3) (fun _ => 1/2))).mulVec delta
        = (fun a => -reducedGradient (fun _ : Fin 1 => 1/2)
            (gradient exSpace1 exCoeffs1 (fun _ => 3) (fun _ => 1/2)) a)
      ∧ newtonLoop exSpace1 exCoeffs1 (fun _ => 3) 1 1 (fun _ => 1/2)
          = newtonLoop exSpace1 exCoeffs1 (fun _ => 3) 1 0
              (fun k => clip01 (applyDelta (fun _ => 1/2)
                (coordinatesToKeep (fun _ : Fin 1 => 1/2)
                  (gradient exSpace1 exCoeffs1 (fun _ => 3) (fun _ => 1/2)))
                delta k)) := by
  have hg : gradient exSpace1 exCoeffs1 (fun _ => 3) (fun _ => 1/2)
      = fun _ => -6 := by
    rw [exSpace1_gradient]
    funext k
    norm_num
  have hh : hessian exSpace1 exCoeffs1 (fun _ => 3) (fun _ => 1/2)
      = fun _ _ => -4 := by
    rw [exSpace1_hessian]
    funext k m
    norm_num
  have hsol : npSolve (reducedHessian (fun _ : Fin 1 => 1/2)
      (gradient exSpace1 exCoeffs1 (fun _ => 3) (fun _ => 1/2))
      (hessian exSpace1 exCoeffs1 (fun _ => 3) (fun _ => 1/2)))
      (fun a => -reducedGradient (fun _ : Fin 1 => 1/2)
        (gradient exSpace1 exCoeffs1 (fun _ => 3) (fun _ => 1/2)) a)
      = some (fun _ => ((-4:ℚ))⁻¹ * -(-6)) := by
    rw [hg, hh]
    exact npSolve_reducedHessian_singleton (keep_half _) (by norm_num)
  have hnc : ¬ normLt (reducedGradient (fun _ : Fin 1 => 1/2)
      (gradient exSpace1 exCoeffs1 (fun _ => 3) (fun _ => 1/2))) 1 := by
    rw [hg]
    rintro ⟨-, hlt⟩
    rw [normSq_reducedGradient, keep_half] at hlt
    norm_num at hlt
  have h := (newton_step_formulas exSpace1 exCoeffs1 (fun _ => 3)
    (fun _ => 1/2) 1 0).2.2.2 _ hsol
  exact ⟨_, hsol, h.1, h.2 hnc⟩

/-- C3: the free-coordinate set of an iteration keeps exactly the
coordinates not pinned at an outward-pushing boundary (at `0` with positive
gradient, or at `1` with negative gradient), recomputed from the current
guess and gradient; and on a concrete two-dimensional instance a coordinate
excluded in one iteration is free again in the next. -/
theorem active_set_rule_and_reentry :
    (∀ (e : ℕ) (guess grad : Fin e → ℚ) (k : Fin e),
        k ∈ coordinatesToKeep guess grad
          ↔ ¬ ((guess k = 0 ∧ 0 < grad k) ∨ (guess k = 1 ∧ grad k < 0)))
    ∧ ∃ (point : Fin 1 → ℚ) (guess1 : Fin 2 → ℚ) (k : Fin 2)
        (delta : Fin (coordinatesToKeep guess1
          (gradient exSpace2 exCoeffs2 point guess1)).length → ℚ),
        coordinateRemoved guess1 (gradient exSpace2 exCoeffs2 point guess1) k
        ∧ npSolve (reducedHessian guess1 (gradient exSpace2 exCoeffs2 point guess1)
              (hessian exSpace2 exCoeffs2 point guess1))
            (fun a => -reducedGradient guess1
              (gradient exSpace2 exCoeffs2 point guess1) a)
            = some delta
        ∧ ¬ coordinateRemoved
            (fun m => clip01 (applyDelta guess1
              (coordinatesToKeep guess1 (gradient exSpace2 exCoeffs2 point guess1))
              delta m))
            (gradient exSpace2 exCoeffs2 point
              (fun m => clip01 (applyDelta guess1
                (coordinatesToKeep guess1 (gradient exSpace2 exCoeffs2 point guess1))
                delta m)))
            k := by
  constructor
  · intro e guess grad k
    simp only [coordinatesToKeep, List.mem_filter, List.mem_finRange,
      decide_not, Bool.not_eq_eq_eq_not, Bool.not_true, decide_eq_false_iff_not,
      true_and, coordinateRemoved]
  · refine ⟨fun _ => 1, fun _ => 0, 0, fun _ =>
      (hessian exSpace2 exCoeffs2 (fun _ => 1) (fun _ => 0) 1 1)⁻¹ *
        -(gradient exSpace2 exCoeffs2 (fun _ => 1) (fun _ => 0) 1), ?_, ?_, ?_⟩
    case _ =>
      left
      refine ⟨rfl, ?_⟩
      rw [exSpace2_gradient_zero]
      norm_num
    case _ =>
      refine npSolve_reducedHessian_singleton ?_ ?_
      · have hrem0 : coordinateRemoved (fun _ : Fin 2 => (0:ℚ))
            (gradient exSpace2 exCoeffs2 (fun _ => 1) (fun _ => 0)) 0 := by
          left
          refine ⟨rfl, ?_⟩
          rw [exSpace2_gradient_zero]
          norm_num
        have hkeep1 : ¬ coordinateRemoved (fun _ : Fin 2 => (0:ℚ))
            (gradient exSpace2 exCoeffs2 (fun _ => 1) (fun _ => 0)) 1 := by
          rintro (⟨-, h2⟩ | ⟨h1, -⟩)
          · rw [exSpace2_gradient_one] at h2
            norm_num at h2
          · norm_num at h1
        have hfin2 : List.finRange 2 = [0, 1] := by decide
        unfold coordinatesToKeep
        rw [hfin2, List.filter_cons,
          if_neg (fun hc => (of_decide_eq_true hc) hrem0),
          List.filter_cons, if_pos (decide_eq_true hkeep1)]
        rfl
      · rw [exSpace2_hessian_one_one]
        norm_num
    case _ =>
      have hkeep : coordinatesToKeep (fun _ : Fin 2 => (0:ℚ))
          (gradient exSpace2 exCoeffs2 (fun _ => 1) (fun _ => 0)) = [1] := by
        have hrem0 : coordinateRemoved (fun _ : Fin 2 => (0:ℚ))
            (gradient exSpace2 exCoeffs2 (fun _ => 1) (fun _ => 0)) 0 := by
          left
          refine ⟨rfl, ?_⟩
          rw [exSpace2_gradient_zero]
          norm_num
        have hkeep1 : ¬ coordinateRemoved (fun _ : Fin 2 => (0:ℚ))
            (gradient exSpace2 exCoeffs2 (fun _ => 1) (fun _ => 0)) 1 := by
          rintro (⟨-, h2⟩ | ⟨h1, -⟩)
          · rw [exSpace2_gradient_one] at h2
            norm_num at h2
          · norm_num at h1
        have hfin2 : List.finRange 2 = [0, 1] := by decide
        unfold coordinatesToKeep
        rw [hfin2, List.filter_cons,
          if_neg (fun hc => (of_decide_eq_true hc) hrem0),
          List.filter_cons, if_pos (decide_eq_true hkeep1)]
        rfl
      have hguess2 : (fun m => clip01 (applyDelta (fun _ : Fin 2 => (0:ℚ))
          (coordinatesToKeep (fun _ : Fin 2 => (0:ℚ))
            (gradient exSpace2 exCoeffs2 (fun _ => 1) (fun _ => 0)))
          (fun _ => (hessian exSpace2 exCoeffs2 (fun _ => 1) (fun _ => 0) 1 1)⁻¹ *
            -(gradient exSpace2 exCoeffs2 (fun _ => 1) (fun _ => 0) 1)) m))
          = fun m : Fin 2 => if m = 1 then (1:ℚ) else 0 := by
        rw [hkeep]
        funext m
        rw [applyDelta_singleton]
        by_cases hm : m = 1
        · subst hm
          simp only [exSpace2_hessian_one_one, exSpace2_gradient_one]
          norm_num [clip01]
        · simp only [exSpace2_hessian_one_one, exSpace2_gradient_one]
          norm_num [clip01, hm]
      rw [hguess2]
      rintro (⟨-, h2⟩ | ⟨h1, -⟩)
      · rw [exSpace2_gradient_zero] at h2
        simp at h2
        norm_num at h2
      · simp at h1

end Lsdo
